import Mathlib

/-!
Shallow embedding of the Focus Force to-do application
(src/FF/FocusForce/App.tsx): the component state held by the five
`useState` hooks, the event handlers, and the derived display list
(`sortedToDoList` / `filteredToDoList`).

JavaScript semantics modelled explicitly:
* `toDoList[index]` on an out-of-range index yields `undefined`, and the
  subsequent property access throws a `TypeError`; handlers performing
  such an access are embedded as `Except String AppState`, the `.error`
  branch being the thrown exception (the throw happens before any
  `set…` call, so on a throw the component state is unchanged).
* `Array.prototype.splice(index, 1)` removes the element at `index` when
  in range and removes nothing otherwise: `List.eraseIdx`.
* `Array.prototype.sort` is required (ECMAScript 2019 and later) to be a
  stable sort ordered by the comparator; it is embedded as the stable
  insertion sort `List.insertionSort`, chosen so the kernel can evaluate
  it on concrete states.  The theorems below establish exactly the
  contract the ECMAScript specification gives: a permutation of the
  input, ordered by the comparator, with tied elements in input order.
* `a.text.localeCompare(b.text)` is a locale-aware three-way comparison;
  it is modelled as the lexicographic comparison of the lists of
  characters of the two strings.  Every theorem below depends only on it
  being a total preorder on the `text` field.
* the truthiness test `if (inputValue)` on a string is `inputValue ≠ ""`.
-/

namespace FocusForce

/-- Lexicographic "not greater" on lists of characters: the model of a
three-way string comparison returning a non-positive value. -/
def charListLe : List Char → List Char → Bool
  | [], _ => true
  | _ :: _, [] => false
  | c :: cs, d :: ds =>
    if c < d then true else if d < c then false else charListLe cs ds

/-- `a.localeCompare(b) <= 0`, modelled as lexicographic comparison of
the character data of the two strings. -/
def localeCompareLe (a b : String) : Bool := charListLe a.data b.data

/-- One to-do entry: `{ text, completed }`. -/
structure ToDoItem where
  text : String
  completed : Bool
deriving Repr, DecidableEq

/-- The component state: the five `useState` hooks of `App`.
`sortBy` starts as `null` and is only ever set to `"name"`, hence
`Option String`; `editIndex` starts as `null`, hence `Option Nat`. -/
structure AppState where
  toDoList : List ToDoItem
  inputValue : String
  editIndex : Option Nat
  showCompleted : Bool
  sortBy : Option String
deriving Repr, DecidableEq

/-- The initial state of the component:
`useState([])`, `useState("")`, `useState(null)`, `useState(true)`,
`useState(null)`. -/
def initialState : AppState :=
  { toDoList := [], inputValue := "", editIndex := none,
    showCompleted := true, sortBy := none }

/-- `handleAddToDo`: if `inputValue` is truthy (a non-empty string),
append `{ text: inputValue, completed: false }` and clear the input. -/
def handleAddToDo (s : AppState) : AppState :=
  if s.inputValue ≠ "" then
    { s with toDoList := s.toDoList ++ [⟨s.inputValue, false⟩],
             inputValue := "" }
  else s

/-- `handleToggleCompleted(index)`: reads
`updatedToDoList[index].completed`; on an out-of-range index the element
access yields `undefined` and the property access throws a `TypeError`
before any state update. -/
def handleToggleCompleted (index : Nat) (s : AppState) :
    Except String AppState :=
  match s.toDoList[index]? with
  | some item =>
      .ok { s with toDoList :=
              s.toDoList.set index ⟨item.text, !item.completed⟩ }
  | none => .error "TypeError: cannot read property of undefined"

/-- `handleDeleteToDo(index)`: `splice(index, 1)` removes the element at
`index` when in range and nothing otherwise. -/
def handleDeleteToDo (index : Nat) (s : AppState) : AppState :=
  { s with toDoList := s.toDoList.eraseIdx index }

/-- `handleEditToDo(index, newText)`: writes
`updatedToDoList[index].text = newText`, then clears `editIndex`; on an
out-of-range index the property access throws before any state update. -/
def handleEditToDo (index : Nat) (newText : String) (s : AppState) :
    Except String AppState :=
  match s.toDoList[index]? with
  | some item =>
      .ok { s with
              toDoList := s.toDoList.set index ⟨newText, item.completed⟩,
              editIndex := none }
  | none => .error "TypeError: cannot read property of undefined"

/-- `handleToggleShowCompleted`: flips the `showCompleted` flag. -/
def handleToggleShowCompleted (s : AppState) : AppState :=
  { s with showCompleted := !s.showCompleted }

/-- `handleSortByName`: sets `sortBy` to `"name"`. -/
def handleSortByName (s : AppState) : AppState :=
  { s with sortBy := some "name" }

/-- `onChangeText` of the add-input: `setInputValue(text)`. -/
def setInputValue (text : String) (s : AppState) : AppState :=
  { s with inputValue := text }

/-- `setEditIndex` as invoked by long-press (enter edit mode) and the
Update button (`setEditIndex(null)`). -/
def setEditIndex (index : Option Nat) (s : AppState) : AppState :=
  { s with editIndex := index }

/-- The comparator `(a, b) => a.text.localeCompare(b.text)` read as the
relation "a sorts no later than b", as `Array.prototype.sort` consumes
it. -/
def byName (a b : ToDoItem) : Prop := localeCompareLe a.text b.text = true

instance : DecidableRel byName := fun a b =>
  inferInstanceAs (Decidable (localeCompareLe a.text b.text = true))

/-- `sortedToDoList`: a copy of `toDoList`, stable-sorted by the
comparator when `sortBy === "name"`. -/
def sortedToDoList (s : AppState) : List ToDoItem :=
  if s.sortBy = some "name" then s.toDoList.insertionSort byName
  else s.toDoList

/-- `filteredToDoList`: keeps `toDo` iff `showCompleted || !toDo.completed`. -/
def filteredToDoList (s : AppState) : List ToDoItem :=
  (sortedToDoList s).filter (fun toDo => s.showCompleted || !toDo.completed)

/-- The user actions the screen can forward to the handlers. -/
inductive Op where
  | addToDo
  | toggleCompleted (index : Nat)
  | deleteToDo (index : Nat)
  | editToDo (index : Nat) (newText : String)
  | toggleShowCompleted
  | sortByName
  | inputChange (text : String)
  | editTarget (index : Option Nat)
deriving Repr, DecidableEq

/-- One user action applied to the state.  For the two handlers that can
throw, the exception escapes the event callback before any `set…` call,
so the state is unchanged on the error branch. -/
def applyOp (op : Op) (s : AppState) : AppState :=
  match op with
  | .addToDo => handleAddToDo s
  | .toggleCompleted i =>
      match handleToggleCompleted i s with
      | .ok s' => s'
      | .error _ => s
  | .deleteToDo i => handleDeleteToDo i s
  | .editToDo i t =>
      match handleEditToDo i t s with
      | .ok s' => s'
      | .error _ => s
  | .toggleShowCompleted => handleToggleShowCompleted s
  | .sortByName => handleSortByName s
  | .inputChange t => setInputValue t s
  | .editTarget i => setEditIndex i s

/-- A session: a sequence of user actions from a starting state. -/
def applyOps (ops : List Op) (s : AppState) : AppState :=
  ops.foldl (fun st op => applyOp op st) s

/-- The "Zebra then Apple then sort" session of the spec's scenario. -/
def zebraAppleState : AppState :=
  applyOps [.inputChange "Zebra", .addToDo, .inputChange "Apple",
            .addToDo, .sortByName] initialState

/-- Two pending items "b" then "a" with the by-name sort active: under
the sort the displayed order is reversed from the underlying order. -/
def reversedPairState : AppState :=
  { toDoList := [⟨"b", false⟩, ⟨"a", false⟩], inputValue := "",
    editIndex := none, showCompleted := true, sortBy := some "name" }

/-- Three items, two of them sharing the text "b", with the by-name sort
active: exercises stability of the sort. -/
def duplicateTextState : AppState :=
  { toDoList := [⟨"b", true⟩, ⟨"a", false⟩, ⟨"b", false⟩],
    inputValue := "", editIndex := none, showCompleted := true,
    sortBy := some "name" }

/-- One completed and one pending item with completed items hidden. -/
def hiddenCompletedState : AppState :=
  { toDoList := [⟨"x", true⟩, ⟨"y", false⟩], inputValue := "",
    editIndex := none, showCompleted := false, sortBy := none }

theorem charListLe_cons_iff {c d : Char} {cs ds : List Char} :
    charListLe (c :: cs) (d :: ds) = true ↔
      c < d ∨ (c = d ∧ charListLe cs ds = true) := by
  rcases lt_trichotomy c d with h | h | h
  · simp [charListLe, h]
  · subst h
    simp [charListLe, lt_irrefl]
  · have h1 : ¬ c < d := asymm h
    have h2 : c ≠ d := (ne_of_lt h).symm
    simp [charListLe, h1, h, h2]

theorem charListLe_refl (l : List Char) : charListLe l l = true := by
  induction l with
  | nil => rfl
  | cons c cs ih => simp [charListLe_cons_iff, ih]

theorem charListLe_total (l m : List Char) :
    charListLe l m = true ∨ charListLe m l = true := by
  induction l generalizing m with
  | nil => exact Or.inl rfl
  | cons c cs ih =>
    cases m with
    | nil => exact Or.inr rfl
    | cons d ds =>
      rcases lt_trichotomy c d with h | h | h
      · exact Or.inl (by simp [charListLe_cons_iff, h])
      · subst h
        rcases ih ds with h' | h'
        · exact Or.inl (by simp [charListLe_cons_iff, h'])
        · exact Or.inr (by simp [charListLe_cons_iff, h'])
      · exact Or.inr (by simp [charListLe_cons_iff, h])

theorem charListLe_trans {l m n : List Char} (h1 : charListLe l m = true)
    (h2 : charListLe m n = true) : charListLe l n = true := by
  induction l generalizing m n with
  | nil => rfl
  | cons c cs ih =>
    cases m with
    | nil => simp [charListLe] at h1
    | cons d ds =>
      cases n with
      | nil => simp [charListLe] at h2
      | cons e es =>
        rw [charListLe_cons_iff] at h1 h2 ⊢
        rcases h1 with h1 | ⟨rfl, h1⟩
        · rcases h2 with h2 | ⟨rfl, h2⟩
          · exact Or.inl (lt_trans h1 h2)
          · exact Or.inl h1
        · rcases h2 with h2 | ⟨rfl, h2⟩
          · exact Or.inl h2
          · exact Or.inr ⟨rfl, ih h1 h2⟩

theorem byName_total (a b : ToDoItem) : byName a b ∨ byName b a :=
  charListLe_total a.text.data b.text.data

theorem byName_trans {a b c : ToDoItem} (h1 : byName a b) (h2 : byName b c) :
    byName a c :=
  charListLe_trans h1 h2

theorem byName_of_text_eq {a b : ToDoItem} (h : a.text = b.text) :
    byName a b := by
  unfold byName localeCompareLe
  rw [h]
  exact charListLe_refl _

theorem length_sortedToDoList (s : AppState) :
    (sortedToDoList s).length = s.toDoList.length := by
  unfold sortedToDoList
  split
  · simp [List.length_insertionSort]
  · rfl

/-- C4: on any state whose pending input is a non-empty string,
`handleAddToDo` appends `{ text: inputValue, completed: false }` at the
end of the underlying list, grows the underlying count by exactly one,
and clears the pending input. -/
theorem addToDo_appends (s : AppState) (h : s.inputValue ≠ "") :
    (handleAddToDo s).toDoList = s.toDoList ++ [⟨s.inputValue, false⟩] ∧
    (handleAddToDo s).toDoList.length = s.toDoList.length + 1 ∧
    (handleAddToDo s).inputValue = "" := by
  simp [handleAddToDo, h]

/-- C4 witness: adding "Buy milk" to the empty list. -/
theorem addToDo_appends_witness :
    (handleAddToDo (setInputValue "Buy milk" initialState)).toDoList
        = (setInputValue "Buy milk" initialState).toDoList
            ++ [⟨(setInputValue "Buy milk" initialState).inputValue, false⟩] ∧
    (handleAddToDo (setInputValue "Buy milk" initialState)).toDoList.length
        = (setInputValue "Buy milk" initialState).toDoList.length + 1 ∧
    (handleAddToDo (setInputValue "Buy milk" initialState)).inputValue = "" :=
  addToDo_appends (setInputValue "Buy milk" initialState) (by decide)

/-- C8: on any state whose pending input is the empty string,
`handleAddToDo` is a silent no-op: the whole state, in particular the
underlying list and its count, is unchanged, and nothing is raised. -/
theorem addToDo_empty_noop (s : AppState) (h : s.inputValue = "") :
    handleAddToDo s = s := by
  simp [handleAddToDo, h]

/-- C8 witness: adding with an empty input on the initial state. -/
theorem addToDo_empty_noop_witness : handleAddToDo initialState = initialState :=
  addToDo_empty_noop initialState rfl

/-- C10: `handleToggleShowCompleted` changes only the `showCompleted`
flag and `handleSortByName` changes only the `sortBy` setting; both
leave the underlying task list, the pending input and the edit target
unchanged. -/
theorem view_settings_frame (s : AppState) :
    (handleToggleShowCompleted s).showCompleted = !s.showCompleted ∧
    (handleToggleShowCompleted s).toDoList = s.toDoList ∧
    (handleToggleShowCompleted s).inputValue = s.inputValue ∧
    (handleToggleShowCompleted s).editIndex = s.editIndex ∧
    (handleToggleShowCompleted s).sortBy = s.sortBy ∧
    (handleSortByName s).sortBy = some "name" ∧
    (handleSortByName s).toDoList = s.toDoList ∧
    (handleSortByName s).inputValue = s.inputValue ∧
    (handleSortByName s).editIndex = s.editIndex ∧
    (handleSortByName s).showCompleted = s.showCompleted := by
  simp [handleToggleShowCompleted, handleSortByName]

/-- C3: deriving the display list never changes the underlying ordered
sequence — `handleSortByName` leaves `toDoList` untouched on every
state, and on the spec's scenario (add "Zebra", add "Apple", sort by
name) the displayed list is ["Apple", "Zebra"] while the underlying
order is still ["Zebra", "Apple"]. -/
theorem display_derivation_no_mutation :
    (∀ s : AppState, (handleSortByName s).toDoList = s.toDoList) ∧
    filteredToDoList zebraAppleState
      = [⟨"Apple", false⟩, ⟨"Zebra", false⟩] ∧
    zebraAppleState.toDoList = [⟨"Zebra", false⟩, ⟨"Apple", false⟩] :=
  ⟨fun _ => rfl, by decide, by decide⟩

/-- C6: on any valid index into the underlying list, `handleDeleteToDo`
removes exactly the item at that position — the result is the items
before it followed by the items after it, in order — and the underlying
count drops by exactly one. -/
theorem deleteToDo_removes_exactly_one (s : AppState) (i : Nat)
    (h : i < s.toDoList.length) :
    (handleDeleteToDo i s).toDoList
        = s.toDoList.take i ++ s.toDoList.drop (i + 1) ∧
    (handleDeleteToDo i s).toDoList.length + 1 = s.toDoList.length := by
  constructor
  · simp [handleDeleteToDo, List.eraseIdx_eq_take_drop_succ]
  · simp [handleDeleteToDo, List.length_eraseIdx, h]
    omega

/-- C6 witness: deleting index 0 of the two-item state. -/
theorem deleteToDo_removes_exactly_one_witness :
    (handleDeleteToDo 0 reversedPairState).toDoList
        = reversedPairState.toDoList.take 0
            ++ reversedPairState.toDoList.drop 1 ∧
    (handleDeleteToDo 0 reversedPairState).toDoList.length + 1
        = reversedPairState.toDoList.length :=
  deleteToDo_removes_exactly_one reversedPairState 0 (by decide)

/-- C5: with `showCompleted = false` no completed item appears in the
displayed list; with `showCompleted = true` the displayed list has the
same length as the underlying storage. -/
theorem filteredToDoList_spec (s : AppState) :
    (s.showCompleted = false →
      ∀ item ∈ filteredToDoList s, item.completed = false) ∧
    (s.showCompleted = true →
      (filteredToDoList s).length = s.toDoList.length) := by
  constructor
  · intro h item hmem
    have h2 := (List.mem_filter.mp hmem).2
    rw [h] at h2
    simpa using h2
  · intro h
    rw [filteredToDoList, h]
    simp [length_sortedToDoList]

/-- C5 witness: with completed items shown the displayed list keeps the
full length; stated on the duplicate-text state. -/
theorem filteredToDoList_spec_witness :
    (filteredToDoList duplicateTextState).length
      = duplicateTextState.toDoList.length :=
  (filteredToDoList_spec duplicateTextState).2 rfl

/-- C2 counterexample: `handleToggleCompleted 0` on the initial (empty)
state reaches the error branch — reading `.completed` of `undefined`
throws a `TypeError`, so not every input succeeds or is a silent no-op. -/
theorem toggleCompleted_out_of_range_raises :
    handleToggleCompleted 0 initialState
      = .error "TypeError: cannot read property of undefined" := rfl

/-- C2 amended: `handleToggleCompleted` and `handleEditToDo` succeed
exactly on indices in range of the underlying list and throw a
`TypeError` otherwise, in which case the component state is unchanged;
`handleDeleteToDo` is total, an out-of-range index being a silent
no-op. -/
theorem operations_totality (s : AppState) (i : Nat) (t : String) :
    ((handleToggleCompleted i s).isOk = true ↔ i < s.toDoList.length) ∧
    ((handleEditToDo i t s).isOk = true ↔ i < s.toDoList.length) ∧
    (s.toDoList.length ≤ i →
      handleDeleteToDo i s = s ∧
      applyOp (.toggleCompleted i) s = s ∧
      applyOp (.editToDo i t) s = s) := by
  refine ⟨?_, ?_, ?_⟩
  · unfold handleToggleCompleted
    cases hx : s.toDoList[i]? with
    | some a =>
      obtain ⟨hlt, -⟩ := List.getElem?_eq_some_iff.mp hx
      exact iff_of_true rfl hlt
    | none =>
      have hge := List.getElem?_eq_none_iff.mp hx
      exact iff_of_false Bool.false_ne_true (by omega)
  · unfold handleEditToDo
    cases hx : s.toDoList[i]? with
    | some a =>
      obtain ⟨hlt, -⟩ := List.getElem?_eq_some_iff.mp hx
      exact iff_of_true rfl hlt
    | none =>
      have hge := List.getElem?_eq_none_iff.mp hx
      exact iff_of_false Bool.false_ne_true (by omega)
  · intro hle
    have hx : s.toDoList[i]? = none := List.getElem?_eq_none hle
    refine ⟨?_, ?_, ?_⟩
    · simp [handleDeleteToDo, List.eraseIdx_of_length_le hle]
    · simp [applyOp, handleToggleCompleted, hx]
    · simp [applyOp, handleEditToDo, hx]

/-- C2 witness: on the two-item state, index 0 succeeds while index 5 is
out of range, where delete is a no-op and toggle leaves the state as it
was. -/
theorem operations_totality_witness :
    (handleToggleCompleted 0 reversedPairState).isOk = true ∧
    handleDeleteToDo 5 reversedPairState = reversedPairState ∧
    applyOp (.toggleCompleted 5) reversedPairState = reversedPairState :=
  ⟨(operations_totality reversedPairState 0 "z").1.mpr (by decide),
   ((operations_totality reversedPairState 5 "z").2.2 (by decide)).1,
   ((operations_totality reversedPairState 5 "z").2.2 (by decide)).2.1⟩

theorem sortBy_handleToggleCompleted {i : Nat} {s s' : AppState}
    (h : handleToggleCompleted i s = .ok s') : s'.sortBy = s.sortBy := by
  unfold handleToggleCompleted at h
  cases hx : s.toDoList[i]? with
  | some a =>
    rw [hx] at h
    injection h with h2
    subst h2
    rfl
  | none =>
    rw [hx] at h
    cases h

theorem sortBy_handleEditToDo {i : Nat} {t : String} {s s' : AppState}
    (h : handleEditToDo i t s = .ok s') : s'.sortBy = s.sortBy := by
  unfold handleEditToDo at h
  cases hx : s.toDoList[i]? with
  | some a =>
    rw [hx] at h
    injection h with h2
    subst h2
    rfl
  | none =>
    rw [hx] at h
    cases h

/-- C9: once `sortBy` is `"name"`, it stays `"name"` after any sequence
of user actions — no operation of the component ever resets the sort
mode to insertion order. -/
theorem sortBy_byName_persists (ops : List Op) (s : AppState)
    (h : s.sortBy = some "name") :
    (applyOps ops s).sortBy = some "name" := by
  induction ops generalizing s with
  | nil => exact h
  | cons op rest ih =>
    have hstep : (applyOp op s).sortBy = some "name" := by
      cases op with
      | addToDo =>
        show (handleAddToDo s).sortBy = some "name"
        unfold handleAddToDo
        split <;> simpa using h
      | toggleCompleted i =>
        cases hh : handleToggleCompleted i s with
        | error m =>
          have hred : applyOp (.toggleCompleted i) s = s := by
            simp [applyOp, hh]
          rw [hred]
          exact h
        | ok s' =>
          have hred : applyOp (.toggleCompleted i) s = s' := by
            simp [applyOp, hh]
          rw [hred]
          exact (sortBy_handleToggleCompleted hh).trans h
      | deleteToDo i =>
        show (handleDeleteToDo i s).sortBy = some "name"
        simpa [handleDeleteToDo] using h
      | editToDo i t =>
        cases hh : handleEditToDo i t s with
        | error m =>
          have hred : applyOp (.editToDo i t) s = s := by
            simp [applyOp, hh]
          rw [hred]
          exact h
        | ok s' =>
          have hred : applyOp (.editToDo i t) s = s' := by
            simp [applyOp, hh]
          rw [hred]
          exact (sortBy_handleEditToDo hh).trans h
      | toggleShowCompleted =>
        show (handleToggleShowCompleted s).sortBy = some "name"
        simpa [handleToggleShowCompleted] using h
      | sortByName =>
        show (handleSortByName s).sortBy = some "name"
        simp [handleSortByName]
      | inputChange t =>
        show (setInputValue t s).sortBy = some "name"
        simpa [setInputValue] using h
      | editTarget i =>
        show (setEditIndex i s).sortBy = some "name"
        simpa [setEditIndex] using h
    exact ih (applyOp op s) hstep

/-- C9 witness: after sorting by name, toggling the filter and adding an
item leave the sort mode at `"name"`. -/
theorem sortBy_byName_persists_witness :
    (applyOps [.toggleShowCompleted, .inputChange "Call Bob", .addToDo]
        (handleSortByName initialState)).sortBy = some "name" :=
  sortBy_byName_persists [.toggleShowCompleted, .inputChange "Call Bob", .addToDo]
    (handleSortByName initialState) rfl

theorem filter_insertionSort_text (l : List ToDoItem) (t : String) :
    (l.insertionSort byName).filter (fun x => decide (x.text = t))
      = l.filter (fun x => decide (x.text = t)) := by
  have hmemt : ∀ x ∈ l.filter (fun x => decide (x.text = t)), x.text = t := by
    intro x hx
    exact of_decide_eq_true (List.mem_filter.mp hx).2
  have hpair : (l.filter (fun x => decide (x.text = t))).Pairwise byName := by
    apply List.pairwise_of_forall_mem_list
    intro a ha b hb
    exact byName_of_text_eq ((hmemt a ha).trans (hmemt b hb).symm)
  have hsub : List.Sublist (l.filter (fun x => decide (x.text = t)))
      (l.insertionSort byName) :=
    List.sublist_insertionSort hpair (List.filter_sublist l)
  have hsub2 : List.Sublist (l.filter (fun x => decide (x.text = t)))
      ((l.insertionSort byName).filter (fun x => decide (x.text = t))) := by
    have h1 := hsub.filter (fun x => decide (x.text = t))
    rwa [List.filter_eq_self.mpr (fun a ha => (List.mem_filter.mp ha).2)] at h1
  have hperm : List.Perm
      ((l.insertionSort byName).filter (fun x => decide (x.text = t)))
      (l.filter (fun x => decide (x.text = t))) :=
    (List.perm_insertionSort byName l).filter _
  exact (hsub2.eq_of_length hperm.length_eq.symm).symm

/-- C7: with the by-name sort active, the displayed list is ordered by
the (modelled) locale-aware comparison on `text`, and the sort is
stable — for every text `t`, the items with text `t` appear in the
sorted copy exactly as they appear in the underlying insertion order. -/
theorem sortByName_sorted_and_stable (s : AppState)
    (h : s.sortBy = some "name") :
    (filteredToDoList s).Pairwise byName ∧
    ∀ t : String,
      (sortedToDoList s).filter (fun x => decide (x.text = t))
        = s.toDoList.filter (fun x => decide (x.text = t)) := by
  haveI : IsTotal ToDoItem byName := ⟨byName_total⟩
  haveI : IsTrans ToDoItem byName := ⟨fun _ _ _ => byName_trans⟩
  have hsorted : (sortedToDoList s).Pairwise byName := by
    unfold sortedToDoList
    rw [if_pos h]
    exact List.sorted_insertionSort byName s.toDoList
  constructor
  · unfold filteredToDoList
    exact hsorted.filter _
  · intro t
    unfold sortedToDoList
    rw [if_pos h]
    exact filter_insertionSort_text s.toDoList t

/-- C7 witness: on underlying [("b", done), ("a", pending),
("b", pending)] the displayed list is sorted and the two items with text
"b" keep their relative order. -/
theorem sortByName_sorted_and_stable_witness :
    (filteredToDoList duplicateTextState).Pairwise byName ∧
    (sortedToDoList duplicateTextState).filter (fun x => decide (x.text = "b"))
      = duplicateTextState.toDoList.filter (fun x => decide (x.text = "b")) :=
  ⟨(sortByName_sorted_and_stable duplicateTextState rfl).1,
   (sortByName_sorted_and_stable duplicateTextState rfl).2 "b"⟩

/-- C1 (evaluation at the failing input): with the by-name sort active
on underlying ["b", "a"], displayed position 0 shows "a", yet
`handleToggleCompleted 0` flips the underlying item "b" and leaves "a"
unchanged — the displayed index is not resolved back to the underlying
item. -/
theorem toggle_misses_displayed_item :
    (filteredToDoList reversedPairState).map ToDoItem.text = ["a", "b"] ∧
    handleToggleCompleted 0 reversedPairState
      = .ok { toDoList := [⟨"b", true⟩, ⟨"a", false⟩], inputValue := "",
              editIndex := none, showCompleted := true,
              sortBy := some "name" } :=
  ⟨by decide, rfl⟩

end FocusForce
